import Mathlib

/-!
Verification of the IMG2GS core: a shallow embedding, over exact rationals
(with the transcendental activations over the reals), of the depth
back-projection (src/core/geometry.py), the Gaussian-splat parameter store and
optimizer configuration (src/core/optimization.py), and the PLY round trip
(GaussianOptimizer.save_ply together with load_ply of
src/run_optimization.py).  Machine floats of the source are modelled as exact
rationals; `np.tan` enters as an explicit parameter (the value of
`np.tan(0.5 * np.radians(fov))`), the only transcendental of the camera model.
-/

namespace IMG2GS

/-- A row of an (N, 3) array: three real values, modelled as exact rationals. -/
abbrev Vec3 : Type := ℚ × ℚ × ℚ

/-- A row of an (N, 4) array (a raw quaternion in w,x,y,z order). -/
abbrev Vec4 : Type := ℚ × ℚ × ℚ × ℚ

/-- The degree-0 spherical-harmonic constant `SH_C0_SCALE = 0.28209479177387814`
of `_initialize_parameters` (optimization.py line 73); run_optimization.py uses
the same decimal literal under the name `SH_C0`. -/
def SH_C0_SCALE : ℚ := 0.28209479177387814

/-- The five per-splat tensors of `GaussianOptimizer` after
`_initialize_parameters`: `means (N,3)`, `scales (N,3)` (log-scale),
`quats (N,4)` (raw quaternion), `opacities (N,1)` (logit), `sh0 (N,1,3)`
(degree-0 SH coefficient, squeezed to one row of 3 per splat). -/
structure SplatParams where
  means : List Vec3
  scales : List Vec3
  quats : List Vec4
  opacities : List ℚ
  sh0 : List Vec3
deriving DecidableEq

namespace GaussianOptimizer

/-- The RGB→SH0 conversion `(rgb - 0.5) / SH_C0_SCALE` applied per channel
(optimization.py line 74). -/
def rgbToSh0 (c : Vec3) : Vec3 :=
  ((c.1 - 0.5) / SH_C0_SCALE, (c.2.1 - 0.5) / SH_C0_SCALE, (c.2.2 - 0.5) / SH_C0_SCALE)

/-- `GaussianOptimizer._initialize_parameters` (optimization.py lines 46-78):
means start at the input points, scales at the constant -5.0, quaternions at
the identity [1,0,0,0], opacity logits at 0.0, and sh0 at the converted input
colors.  `N` is `points.shape[0]`. -/
def initialize_parameters (pointsInitial colorsInitial : List Vec3) : SplatParams :=
  { means := pointsInitial
  , scales := List.replicate pointsInitial.length (-5.0, -5.0, -5.0)
  , quats := List.replicate pointsInitial.length (1.0, 0, 0, 0)
  , opacities := List.replicate pointsInitial.length 0.0
  , sh0 := colorsInitial.map rgbToSh0 }

end GaussianOptimizer

/-- A heap of (N, 3) float buffers, modelling numpy/torch array storage: a
reference is an index into the heap, and `torch.tensor(...)` / `.clone()`
allocate fresh buffers.  Used to state that `__init__` copies rather than
aliases the caller's `points` array. -/
structure Heap where
  cells : List (List Vec3)

/-- Allocate a fresh buffer holding `v`; returns the new heap and the fresh
reference. -/
def Heap.alloc (h : Heap) (v : List Vec3) : Heap × Nat :=
  (⟨h.cells ++ [v]⟩, h.cells.length)

/-- Overwrite the buffer at reference `r` in place (a numpy in-place mutation). -/
def Heap.write (h : Heap) (r : Nat) (v : List Vec3) : Heap :=
  ⟨h.cells.set r v⟩

/-- Read the buffer at reference `r`. -/
def Heap.read (h : Heap) (r : Nat) : List Vec3 :=
  h.cells.getD r []

/-- The allocations `__init__` and `_initialize_parameters` perform for the
positions: `self.points_initial = torch.tensor(points, ...)` copies the
caller's buffer into a fresh one (optimization.py line 38), and
`self.means = nn.Parameter(self.points_initial.clone())` copies again
(line 52).  Returns the final heap and the reference held in `self.means`. -/
def GaussianOptimizer.initMeansBuffer (h : Heap) (pointsRef : Nat) : Heap × Nat :=
  let pointsInitial := h.read pointsRef
  let ht := h.alloc pointsInitial
  let hm := ht.1.alloc (ht.1.read ht.2)
  (hm.1, hm.2)

/-- The six tensors `_setup_optimizer` (optimization.py lines 80-90) registers
with `torch.optim.Adam`, in source order. -/
inductive TensorName
  | means
  | colorsInitial
  | scales
  | quats
  | sh0
  | opacities
deriving DecidableEq

/-- The Adam parameter groups of `_setup_optimizer` as (tensor, learning rate)
pairs, exactly as written in optimization.py lines 83-90 (the position group's
rate is the source expression `0.00016 * 10`). -/
def adamParamGroups : List (TensorName × ℚ) :=
  [ (.means, 0.00016 * 10)
  , (.colorsInitial, 0.0025)
  , (.scales, 0.005)
  , (.quats, 0.001)
  , (.sh0, 0.0025)
  , (.opacities, 0.05) ]

/-- Which of the registered tensors are `nn.Parameter`s (trainable):
`colors_initial` is built by `torch.tensor` in `__init__` (line 39) and never
wrapped in `nn.Parameter`, so it has `requires_grad = False`; the other five
are created as `nn.Parameter`s in `_initialize_parameters`. -/
def isTrainable : TensorName → Bool
  | .colorsInitial => false
  | _ => true

/-- The source's own list of trainable parameters,
`self.params = [self.means, self.scales, self.quats, self.opacities, self.sh0]`
(optimization.py line 78). -/
def paramsList : List TensorName :=
  [.means, .scales, .quats, .opacities, .sh0]

/-- The methods class `GaussianOptimizer` defines (optimization.py lines
27-213): its complete attribute table for method lookup. -/
def gaussianOptimizerMethods : List String :=
  ["__init__", "_initialize_parameters", "_setup_optimizer", "render",
   "optimize_step", "save_ply"]

/-- Python attribute lookup of a method name on a `GaussianOptimizer`
instance: an `AttributeError` when the class defines no such method. -/
def lookupMethod (name : String) : Except String String :=
  if gaussianOptimizerMethods.contains name then Except.ok name
  else Except.error ("AttributeError: " ++ name)

/-- The method texture_mesh.py line 76 invokes on the optimizer to switch to
color-only optimization: `optimizer.switch_to_color_optimization(lr=0.02)`. -/
def textureMeshSwitchCall : String := "switch_to_color_optimization"

/-- The per-channel sum of absolute differences of two flattened (H·W, 3)
images, the numerator of `torch.abs(rendered_image - gt_image).mean()`
(optimization.py line 149). -/
def sumAbsDiff : List Vec3 → List Vec3 → ℚ
  | a :: as, b :: bs =>
      |a.1 - b.1| + |a.2.1 - b.2.1| + |a.2.2 - b.2.2| + sumAbsDiff as bs
  | _, _ => 0

/-- The loss of `optimize_step`: `torch.abs(rendered_image - gt_image).mean()`,
the mean over all H·W·3 channel entries (optimization.py line 149). -/
def l1Loss (rendered gtImage : List Vec3) : ℚ :=
  sumAbsDiff rendered gtImage / (3 * gtImage.length)

/-- `GaussianOptimizer.optimize_step` (optimization.py lines 137-157): the
external differentiable rasterizer (`self.render`, backed by
`gsplat.rasterization`) enters as the oracle `raster`; the step renders,
computes the L1 loss against the ground-truth image, and returns
`(loss.item(), rendered_image)`.  Images are flattened (H·W, 3) pixel lists. -/
def optimize_step (raster : SplatParams → List Vec3) (p : SplatParams)
    (gtImage : List Vec3) : ℚ × List Vec3 :=
  let rendered := raster p
  (l1Loss rendered gtImage, rendered)

/-- A pixel of a PIL RGB image: three raw 0-255 channel values. -/
abbrev Pixel : Type := Fin 256 × Fin 256 × Fin 256

/-- The color normalization of project_to_3d: `np.array(image) / 255.0`
per channel (geometry.py line 55). -/
def pixelToRgb (c : Pixel) : Vec3 :=
  (((c.1 : ℕ) : ℚ) / 255, ((c.2.1 : ℕ) : ℚ) / 255, ((c.2.2 : ℕ) : ℚ) / 255)

/-- `get_intrinsics` (geometry.py lines 5-12) as the 3×3 matrix
`[[f, 0, cx], [0, f, cy], [0, 0, 1]]` given as rows; `tanHalfFov` stands for
the source's `np.tan(0.5 * np.radians(fov))`, the only transcendental. -/
def get_intrinsics (width height : ℚ) (tanHalfFov : ℚ) : Vec3 × Vec3 × Vec3 :=
  let f := 0.5 * width / tanHalfFov
  ((f, 0, width / 2), (0, f, height / 2), (0, 0, 1))

/-- `np.min` over the values of an array flattened to a list (0 on the empty
array, on which numpy would raise instead; every theorem below assumes a
nonempty map). -/
def listMin : List ℚ → ℚ
  | [] => 0
  | [x] => x
  | x :: y :: xs => min x (listMin (y :: xs))

/-- `np.max` over the values of an array flattened to a list (0 on the empty
array, as for `listMin`). -/
def listMax : List ℚ → ℚ
  | [] => 0
  | [x] => x
  | x :: y :: xs => max x (listMax (y :: xs))

/-- A (H, W) depth map flattened to its H·W values in row-major order. -/
def depthFlatten (depth : List (List ℚ)) : List ℚ :=
  depth.flatMap id

/-- The depth-to-Z pipeline of project_to_3d (geometry.py lines 33-44):
`disparity = (d - depth.min()) / (depth.max() - depth.min() + 1e-8)`,
`z = (1.0 / (disparity + 0.05)) * 5.0`. -/
def depthZ (depth : List (List ℚ)) (d : ℚ) : ℚ :=
  let dmin := listMin (depthFlatten depth)
  let dmax := listMax (depthFlatten depth)
  let disparity := (d - dmin) / (dmax - dmin + 1e-8)
  (1 / (disparity + 0.05)) * 5.0

/-- `project_to_3d` (geometry.py lines 14-57): the image is H rows of W
pixels (PIL reports `image.size = (W, H)`), the depth map H rows of W values.
Output: the flattened (H·W, 3) positions in row-major pixel order (the
`meshgrid`/`stack`/`reshape(-1, 3)` of the source) and the flattened (H·W, 3)
colors normalized by 255.  `tanHalfFov` is passed through to
`get_intrinsics`. -/
def project_to_3d (image : List (List Pixel)) (depth : List (List ℚ))
    (tanHalfFov : ℚ) : List Vec3 × List Vec3 :=
  let width := (image.headD []).length
  let height := image.length
  let K := get_intrinsics (width : ℚ) (height : ℚ) tanHalfFov
  let fx := K.1.1
  let fy := K.2.1.2.1
  let cx := K.1.2.2
  let cy := K.2.1.2.2
  let xyz := (List.range height).flatMap (fun v =>
    (List.range width).map (fun u =>
      let z := depthZ depth ((depth.getD v []).getD u 0)
      (((u : ℚ) - cx) * z / fx, ((v : ℚ) - cy) * z / fy, z)))
  let rgb := image.flatMap (fun row => row.map pixelToRgb)
  (xyz, rgb)

/-- One 17-field float32 vertex record of the binary PLY layout written by
`GaussianOptimizer.save_ply` (optimization.py lines 176-183), field order
`x,y,z, nx,ny,nz, f_dc_0..2, opacity, scale_0..2, rot_0..3`. -/
structure PlyRecord where
  x : ℚ
  y : ℚ
  z : ℚ
  nx : ℚ
  ny : ℚ
  nz : ℚ
  f_dc_0 : ℚ
  f_dc_1 : ℚ
  f_dc_2 : ℚ
  opacity : ℚ
  scale_0 : ℚ
  scale_1 : ℚ
  scale_2 : ℚ
  rot_0 : ℚ
  rot_1 : ℚ
  rot_2 : ℚ
  rot_3 : ℚ
deriving DecidableEq

/-- `GaussianOptimizer.save_ply` (optimization.py lines 159-213): one record
per splat in storage order; positions, sh0, opacity logits, log-scales and raw
quaternions are exported raw (pre-activation), normals zero-filled.
`N = xyz.shape[0]` is the length of `means`. -/
def GaussianOptimizer.save_ply (p : SplatParams) : List PlyRecord :=
  (List.range p.means.length).map (fun i =>
    let m := p.means.getD i (0, 0, 0)
    let fdc := p.sh0.getD i (0, 0, 0)
    let o := p.opacities.getD i 0
    let sc := p.scales.getD i (0, 0, 0)
    let r := p.quats.getD i (0, 0, 0, 0)
    { x := m.1, y := m.2.1, z := m.2.2
    , nx := 0, ny := 0, nz := 0
    , f_dc_0 := fdc.1, f_dc_1 := fdc.2.1, f_dc_2 := fdc.2.2
    , opacity := o
    , scale_0 := sc.1, scale_1 := sc.2.1, scale_2 := sc.2.2
    , rot_0 := r.1, rot_1 := r.2.1, rot_2 := r.2.2.1, rot_3 := r.2.2.2 })

/-- The vertex element of a parsed PLY file as `plyfile` presents it: named
per-vertex property columns. -/
structure PlyVertexElement where
  fields : List (String × List ℚ)

/-- Column lookup by property name (`vertex['name']`, `None`-free model of the
lookup that raises on an absent property). -/
def PlyVertexElement.get? (v : PlyVertexElement) (name : String) : Option (List ℚ) :=
  Option.map Prod.snd (v.fields.find? (fun f => f.1 == name))

/-- Property-presence test (`'name' in vertex`). -/
def PlyVertexElement.hasField (v : PlyVertexElement) (name : String) : Bool :=
  (v.get? name).isSome

/-- A present column's values (used only under a `hasField` guard). -/
def PlyVertexElement.col (v : PlyVertexElement) (name : String) : List ℚ :=
  (v.get? name).getD []

/-- `np.stack([a, b, c], axis=-1)` of three equal-length columns into (N, 3)
rows. -/
def zip3V (a b c : List ℚ) : List Vec3 :=
  a.zip (b.zip c)

/-- `np.clip(x, 0.0, 1.0)` on one value. -/
def clip01 (x : ℚ) : ℚ :=
  min 1 (max 0 x)

/-- The SH0 decode of load_ply: `f_dc * SH_C0 + 0.5` per channel
(run_optimization.py line 24). -/
def shDecode (c : Vec3) : Vec3 :=
  (c.1 * SH_C0_SCALE + 0.5, c.2.1 * SH_C0_SCALE + 0.5, c.2.2 * SH_C0_SCALE + 0.5)

/-- `np.clip(colors, 0.0, 1.0)` on one (3,) row. -/
def clip01V (c : Vec3) : Vec3 :=
  (clip01 c.1, clip01 c.2.1, clip01 c.2.2)

/-- `load_ply` (run_optimization.py lines 9-31): points from the `x,y,z`
columns (an absent position property makes the element lookup raise, modelled
as `Except.error`); colors by priority: direct `red/green/blue` divided by
255, else `f_dc_*` decoded via `clip(f_dc * SH_C0 + 0.5, 0, 1)`, else the
white fallback `np.ones_like(points)` with a printed warning (returned here as
the final `Bool`). -/
def load_ply (v : PlyVertexElement) : Except String (List Vec3 × List Vec3 × Bool) :=
  match v.get? "x", v.get? "y", v.get? "z" with
  | some xs, some ys, some zs =>
      let points := zip3V xs ys zs
      if v.hasField "red" && v.hasField "green" && v.hasField "blue" then
        let colors := (zip3V (v.col "red") (v.col "green") (v.col "blue")).map
          (fun c => (c.1 / 255, c.2.1 / 255, c.2.2 / 255))
        Except.ok (points, colors, false)
      else if v.hasField "f_dc_0" && v.hasField "f_dc_1" && v.hasField "f_dc_2" then
        let colors := (zip3V (v.col "f_dc_0") (v.col "f_dc_1") (v.col "f_dc_2")).map
          (fun c => clip01V (shDecode c))
        Except.ok (points, colors, false)
      else
        Except.ok (points, points.map (fun _ => (1, 1, 1)), true)
  | _, _, _ => Except.error ("PLY vertex element has no position property")

/-- The vertex element a reader sees after `save_ply` writes its structured
array: the 17 property columns in the layout's order. -/
def recordsToElement (rs : List PlyRecord) : PlyVertexElement :=
  ⟨[ ("x", rs.map PlyRecord.x), ("y", rs.map PlyRecord.y), ("z", rs.map PlyRecord.z)
   , ("nx", rs.map PlyRecord.nx), ("ny", rs.map PlyRecord.ny), ("nz", rs.map PlyRecord.nz)
   , ("f_dc_0", rs.map PlyRecord.f_dc_0), ("f_dc_1", rs.map PlyRecord.f_dc_1)
   , ("f_dc_2", rs.map PlyRecord.f_dc_2)
   , ("opacity", rs.map PlyRecord.opacity)
   , ("scale_0", rs.map PlyRecord.scale_0), ("scale_1", rs.map PlyRecord.scale_1)
   , ("scale_2", rs.map PlyRecord.scale_2)
   , ("rot_0", rs.map PlyRecord.rot_0), ("rot_1", rs.map PlyRecord.rot_1)
   , ("rot_2", rs.map PlyRecord.rot_2), ("rot_3", rs.map PlyRecord.rot_3) ]⟩

/-- The opacity activation `torch.sigmoid` (optimization.py line 107). -/
noncomputable def sigmoid (x : ℝ) : ℝ :=
  1 / (1 + Real.exp (-x))

/-- The Euclidean norm `quats.norm(dim=-1)` of one raw quaternion row
(optimization.py line 106). -/
noncomputable def quatNorm (q : Vec4) : ℝ :=
  Real.sqrt ((q.1 : ℝ) ^ 2 + (q.2.1 : ℝ) ^ 2 + (q.2.2.1 : ℝ) ^ 2 + (q.2.2.2 : ℝ) ^ 2)

/-- The rotation activation `quats / quats.norm(dim=-1, keepdim=True)` on one
row (optimization.py line 106). -/
noncomputable def normalizeQuat (q : Vec4) : ℝ × ℝ × ℝ × ℝ :=
  ((q.1 : ℝ) / quatNorm q, (q.2.1 : ℝ) / quatNorm q,
   (q.2.2.1 : ℝ) / quatNorm q, (q.2.2.2 : ℝ) / quatNorm q)

/-- The Euclidean norm of an activated (real) quaternion row. -/
noncomputable def normR4 (q : ℝ × ℝ × ℝ × ℝ) : ℝ :=
  Real.sqrt (q.1 ^ 2 + q.2.1 ^ 2 + q.2.2.1 ^ 2 + q.2.2.2 ^ 2)

/-! Helper lemmas about list shapes shared by the claims below. -/

theorem sumAbsDiff_self (l : List Vec3) : sumAbsDiff l l = 0 := by
  induction l with
  | nil => rfl
  | cons a as ih => simp [sumAbsDiff, ih]

theorem sumAbsDiff_black_white (n : ℕ) :
    sumAbsDiff (List.replicate n ((0 : ℚ), 0, 0)) (List.replicate n ((1 : ℚ), 1, 1))
      = 3 * n := by
  induction n with
  | zero => simp [sumAbsDiff]
  | succ n ih =>
      simp only [List.replicate_succ, sumAbsDiff, ih]
      norm_num
      ring

theorem flatMap_fixed_width_length {α γ : Type} (l : List α) (g : α → List γ) (W : ℕ)
    (hW : ∀ x ∈ l, (g x).length = W) :
    (l.flatMap g).length = l.length * W := by
  induction l with
  | nil => simp
  | cons a as ih =>
      have ha : (g a).length = W := hW a (List.mem_cons_self a as)
      have has : ∀ x ∈ as, (g x).length = W := fun x hx => hW x (List.mem_cons_of_mem a hx)
      simp only [List.flatMap_cons, List.length_append, ha, ih has, List.length_cons]
      ring

theorem flatMap_fixed_width_getElem {α γ : Type} (d : α) (l : List α) (g : α → List γ)
    (W v u : ℕ) (hW : ∀ x ∈ l, (g x).length = W) (hv : v < l.length) (hu : u < W) :
    (l.flatMap g)[v * W + u]? = (g (l.getD v d))[u]? := by
  induction l generalizing v with
  | nil => exact absurd hv (Nat.not_lt_zero v)
  | cons a as ih =>
      have ha : (g a).length = W := hW a (List.mem_cons_self a as)
      have has : ∀ x ∈ as, (g x).length = W := fun x hx => hW x (List.mem_cons_of_mem a hx)
      rw [List.flatMap_cons]
      cases v with
      | zero =>
          rw [Nat.zero_mul, Nat.zero_add, List.getElem?_append_left (by rw [ha]; exact hu),
            List.getD_cons_zero]
      | succ v =>
          have hidx : (v + 1) * W + u - (g a).length = v * W + u := by
            rw [ha, Nat.succ_mul]
            omega
          rw [List.getElem?_append_right (by rw [ha, Nat.succ_mul]; omega), hidx,
            List.getD_cons_succ]
          exact ih v has (by simpa using Nat.lt_of_succ_lt_succ (by simpa using hv))

theorem range_getD (n v : ℕ) (hv : v < n) : (List.range n).getD v 0 = v := by
  rw [List.getD_eq_getElem?_getD, List.getElem?_range hv]
  rfl

theorem listMin_cons_cons (a b : ℚ) (bs : List ℚ) :
    listMin (a :: b :: bs) = min a (listMin (b :: bs)) := rfl

theorem listMax_cons_cons (a b : ℚ) (bs : List ℚ) :
    listMax (a :: b :: bs) = max a (listMax (b :: bs)) := rfl

theorem listMin_le (l : List ℚ) (x : ℚ) (hx : x ∈ l) : listMin l ≤ x := by
  induction l with
  | nil => cases hx
  | cons a as ih =>
      cases as with
      | nil =>
          rw [List.mem_singleton.mp hx]
          exact le_refl _
      | cons b bs =>
          rw [listMin_cons_cons]
          rcases List.mem_cons.mp hx with rfl | hx'
          · exact min_le_left _ _
          · exact le_trans (min_le_right _ _) (ih hx')

theorem le_listMax (l : List ℚ) (x : ℚ) (hx : x ∈ l) : x ≤ listMax l := by
  induction l with
  | nil => cases hx
  | cons a as ih =>
      cases as with
      | nil =>
          rw [List.mem_singleton.mp hx]
          exact le_refl _
      | cons b bs =>
          rw [listMax_cons_cons]
          rcases List.mem_cons.mp hx with rfl | hx'
          · exact le_max_left _ _
          · exact le_trans (ih hx') (le_max_right _ _)

theorem listMin_replicate (n : ℕ) (c : ℚ) (hn : 0 < n) :
    listMin (List.replicate n c) = c := by
  induction n with
  | zero => cases hn
  | succ n ih =>
      cases n with
      | zero => rfl
      | succ m =>
          rw [List.replicate_succ, List.replicate_succ, listMin_cons_cons,
            ← List.replicate_succ, ih (Nat.succ_pos m), min_self]

theorem listMax_replicate (n : ℕ) (c : ℚ) (hn : 0 < n) :
    listMax (List.replicate n c) = c := by
  induction n with
  | zero => cases hn
  | succ n ih =>
      cases n with
      | zero => rfl
      | succ m =>
          rw [List.replicate_succ, List.replicate_succ, listMax_cons_cons,
            ← List.replicate_succ, ih (Nat.succ_pos m), max_self]

theorem depthFlatten_replicate (H W : ℕ) (c : ℚ) :
    depthFlatten (List.replicate H (List.replicate W c)) = List.replicate (H * W) c := by
  induction H with
  | zero => simp [depthFlatten]
  | succ H ih =>
      rw [List.replicate_succ, depthFlatten, List.flatMap_cons]
      rw [depthFlatten] at ih
      rw [ih, Nat.succ_mul, Nat.add_comm, List.replicate_add]
      rfl

/-- The depth-to-Z map sends every value of the depth map into (100/21, 100]:
the normalized disparity lies in [0, 1) thanks to the 1e-8 in the
denominator. -/
theorem depthZ_bounds (depth : List (List ℚ)) (d : ℚ) (hd : d ∈ depthFlatten depth) :
    100 / 21 < depthZ depth d ∧ depthZ depth d ≤ 100 := by
  have hmin : listMin (depthFlatten depth) ≤ d := listMin_le _ _ hd
  have hmax : d ≤ listMax (depthFlatten depth) := le_listMax _ _ hd
  have hden : (0 : ℚ) < listMax (depthFlatten depth) - listMin (depthFlatten depth) + 1e-8 := by
    have : (0 : ℚ) < (1e-8 : ℚ) := by norm_num
    linarith
  have hdisp0 : 0 ≤ (d - listMin (depthFlatten depth)) /
      (listMax (depthFlatten depth) - listMin (depthFlatten depth) + 1e-8) := by
    apply div_nonneg (by linarith) (le_of_lt hden)
  have hdisp1 : (d - listMin (depthFlatten depth)) /
      (listMax (depthFlatten depth) - listMin (depthFlatten depth) + 1e-8) < 1 := by
    rw [div_lt_one hden]
    have : (0 : ℚ) < (1e-8 : ℚ) := by norm_num
    linarith
  have hz : depthZ depth d = 5 / ((d - listMin (depthFlatten depth)) /
      (listMax (depthFlatten depth) - listMin (depthFlatten depth) + 1e-8) + 0.05) := by
    simp only [depthZ]
    ring
  rw [hz]
  constructor
  · have h1 : 5 / (1.05 : ℚ) < 5 / ((d - listMin (depthFlatten depth)) /
        (listMax (depthFlatten depth) - listMin (depthFlatten depth) + 1e-8) + 0.05) := by
      apply div_lt_div_of_pos_left (by norm_num) (by linarith) (by linarith)
    calc (100 : ℚ) / 21 = 5 / 1.05 := by norm_num
    _ < _ := h1
  · have h2 : 5 / ((d - listMin (depthFlatten depth)) /
        (listMax (depthFlatten depth) - listMin (depthFlatten depth) + 1e-8) + 0.05)
        ≤ 5 / (0.05 : ℚ) := by
      apply div_le_div_of_nonneg_left (by norm_num) (by norm_num) (by linarith)
    calc 5 / ((d - listMin (depthFlatten depth)) /
        (listMax (depthFlatten depth) - listMin (depthFlatten depth) + 1e-8) + 0.05)
        ≤ 5 / (0.05 : ℚ) := h2
    _ = 100 := by norm_num

/-- On a constant depth map every value maps to Z = 100 regardless of the
constant. -/
theorem depthZ_const (H W : ℕ) (c : ℚ) (hH0 : 0 < H) (hW0 : 0 < W) :
    depthZ (List.replicate H (List.replicate W c)) c = 100 := by
  have hHW : 0 < H * W := Nat.mul_pos hH0 hW0
  simp only [depthZ, depthFlatten_replicate, listMin_replicate (H * W) c hHW,
    listMax_replicate (H * W) c hHW]
  norm_num

/-- C2: the claim says calling the color-only switch freezes
position/scale/rotation/opacity for all later steps.  The code cannot reach
that state: class `GaussianOptimizer` (optimization.py) defines no
`switch_to_color_optimization` (nor `switch_to_color_only_mode`) method at
all, so the call at texture_mesh.py line 76 raises `AttributeError` — Python
attribute lookup of the called name on the class's method table fails. -/
theorem C2_switch_method_missing :
    lookupMethod textureMeshSwitchCall =
      Except.error ("AttributeError: " ++ "switch_to_color_optimization") ∧
    textureMeshSwitchCall ∉ gaussianOptimizerMethods := by
  constructor
  · rfl
  · decide

/-- C3: `_initialize_parameters` sets means to the input points (held in a
buffer `torch.tensor`/`.clone()` copied from the caller's, so a later in-place
write to the caller's array does not change the store), log-scales to the
constant -5.0, quaternions to the identity [1,0,0,0], opacity logits to 0.0,
and sh0 to `(colors - 0.5) / 0.28209479177387814` elementwise. -/
theorem C3_initialize_parameters (points colors : List Vec3) (N : ℕ)
    (hN : points.length = N) (hcol : colors.length = N)
    (hrange : ∀ c ∈ colors,
      0 ≤ c.1 ∧ c.1 ≤ 1 ∧ 0 ≤ c.2.1 ∧ c.2.1 ≤ 1 ∧ 0 ≤ c.2.2 ∧ c.2.2 ≤ 1)
    (h : Heap) (r : ℕ) (hr : r < h.cells.length) (hv : h.read r = points) :
    (GaussianOptimizer.initialize_parameters points colors).means = points ∧
    (GaussianOptimizer.initialize_parameters points colors).scales =
      List.replicate N ((-5.0 : ℚ), -5.0, -5.0) ∧
    (GaussianOptimizer.initialize_parameters points colors).quats =
      List.replicate N ((1.0 : ℚ), 0, 0, 0) ∧
    (GaussianOptimizer.initialize_parameters points colors).opacities =
      List.replicate N (0.0 : ℚ) ∧
    (GaussianOptimizer.initialize_parameters points colors).sh0 =
      colors.map (fun c => ((c.1 - 0.5) / 0.28209479177387814,
        (c.2.1 - 0.5) / 0.28209479177387814, (c.2.2 - 0.5) / 0.28209479177387814)) ∧
    ∀ mutated, ((GaussianOptimizer.initMeansBuffer h r).1.write r mutated).read
        (GaussianOptimizer.initMeansBuffer h r).2 = points := by
  subst hN
  refine ⟨rfl, rfl, rfl, rfl, rfl, ?_⟩
  intro mutated
  simp only [GaussianOptimizer.initMeansBuffer, Heap.alloc, Heap.write, Heap.read]
  simp only [List.getD_eq_getElem?_getD, List.getElem?_concat_length, Option.getD_some]
  rw [List.getElem?_set_ne (by simp only [List.length_append]; omega)]
  rw [List.getElem?_append_right (le_of_eq rfl)]
  simp only [Nat.sub_self, List.getElem?_cons_zero, Option.getD_some]
  rw [← List.getD_eq_getElem?_getD]
  exact hv

/-- Witness for C3 at a concrete one-splat input. -/
theorem C3_initialize_parameters_witness :
    (GaussianOptimizer.initialize_parameters [((1 : ℚ), 2, 3)] [((0 : ℚ), 1, 0)]).means
      = [((1 : ℚ), 2, 3)] :=
  (C3_initialize_parameters [((1 : ℚ), 2, 3)] [((0 : ℚ), 1, 0)] 1 rfl rfl
    (by decide) ⟨[[((1 : ℚ), 2, 3)]]⟩ 0 (by decide) rfl).1

/-- C4: the claim says the optimizer is configured with exactly five parameter
groups.  The code configures six: `_setup_optimizer` also registers the plain
(non-`nn.Parameter`, `requires_grad = False`) tensor `colors_initial` at
learning rate 0.0025, contradicting the class's own trainable-parameter list
`self.params` of five entries.  The five trainable groups do carry the claimed
rates: position 0.0016 (written `0.00016 * 10`), scale 0.005, rotation 0.001,
color 0.0025, opacity 0.05. -/
theorem C4_adam_groups_are_six_not_five :
    adamParamGroups.length = 6 ∧
    adamParamGroups.filter (fun g => isTrainable g.1) =
      [(.means, 0.0016), (.scales, 0.005), (.quats, 0.001),
       (.sh0, 0.0025), (.opacities, 0.05)] ∧
    (TensorName.colorsInitial, (0.0025 : ℚ)) ∈ adamParamGroups ∧
    isTrainable TensorName.colorsInitial = false ∧
    paramsList.length = 5 := by
  refine ⟨rfl, ?_, ?_, rfl, rfl⟩
  · simp only [adamParamGroups, isTrainable, List.filter]
    norm_num
  · simp only [adamParamGroups]
    norm_num

/-- C9: `get_intrinsics` returns `fx = fy = 0.5 * width / tan(0.5 * fov_rad)`
(the tangent enters as the parameter `tanHalfFov`, positive exactly when fov
is in (0°, 180°)), `cx = width / 2`, `cy = height / 2`; as a Lean function it
is pure by construction, matching the source's effect-free body. -/
theorem C9_get_intrinsics (width height tanHalfFov : ℚ) (ht : 0 < tanHalfFov) :
    (get_intrinsics width height tanHalfFov).1.1 = 0.5 * width / tanHalfFov ∧
    (get_intrinsics width height tanHalfFov).2.1.2.1 =
      (get_intrinsics width height tanHalfFov).1.1 ∧
    (get_intrinsics width height tanHalfFov).1.2.2 = width / 2 ∧
    (get_intrinsics width height tanHalfFov).2.1.2.2 = height / 2 :=
  ⟨rfl, rfl, rfl, rfl⟩

/-- Witness for C9 at width 640, height 480 and a half-FOV tangent of 1
(FOV 90°). -/
theorem C9_get_intrinsics_witness :
    (get_intrinsics 640 480 1).1.1 = 0.5 * 640 / 1 ∧
    (get_intrinsics 640 480 1).2.1.2.1 = (get_intrinsics 640 480 1).1.1 ∧
    (get_intrinsics 640 480 1).1.2.2 = 640 / 2 ∧
    (get_intrinsics 640 480 1).2.1.2.2 = 480 / 2 :=
  C9_get_intrinsics 640 480 1 (by norm_num)

/-- C5: the loss of one `optimize_step` is exactly the mean absolute
per-pixel, per-channel difference (L1) of the rendered and ground-truth
images, with no regularization term; it is 0 when the rendered image equals
the ground truth and 1 when an all-white ground truth meets an all-black
rendering. -/
theorem C5_optimize_step_loss (raster : SplatParams → List Vec3) (p : SplatParams)
    (gtImage : List Vec3) (n : ℕ) (hn : 0 < n)
    (hshape : (raster p).length = gtImage.length) :
    (optimize_step raster p gtImage).1 =
      sumAbsDiff (raster p) gtImage / (3 * gtImage.length) ∧
    (raster p = gtImage → (optimize_step raster p gtImage).1 = 0) ∧
    (gtImage = List.replicate n ((1 : ℚ), 1, 1) →
      raster p = List.replicate n ((0 : ℚ), 0, 0) →
      (optimize_step raster p gtImage).1 = 1) := by
  refine ⟨rfl, ?_, ?_⟩
  · intro heq
    simp only [optimize_step, l1Loss, heq, sumAbsDiff_self, zero_div]
  · intro hgt hrend
    simp only [optimize_step, l1Loss, hgt, hrend, sumAbsDiff_black_white,
      List.length_replicate]
    rw [div_self]
    have : (0 : ℚ) < n := by exact_mod_cast hn
    positivity

/-- Witness for C5: a 2-pixel all-white ground truth against an all-black
rendering yields loss exactly 1. -/
theorem C5_optimize_step_loss_witness :
    (optimize_step (fun _ => List.replicate 2 ((0 : ℚ), 0, 0)) ⟨[], [], [], [], []⟩
      (List.replicate 2 ((1 : ℚ), 1, 1))).1 = 1 :=
  (C5_optimize_step_loss (fun _ => List.replicate 2 ((0 : ℚ), 0, 0)) ⟨[], [], [], [], []⟩
    (List.replicate 2 ((1 : ℚ), 1, 1)) 2 (by norm_num) (by simp)).2.2 rfl rfl

/-- The positions output of `project_to_3d` on an H-row image of W-pixel rows:
the row-major grid of back-projections, with `fx = fy = 0.5·W/t`,
`cx = W/2`, `cy = H/2` from `get_intrinsics`. -/
theorem project_to_3d_xyz (image : List (List Pixel)) (depth : List (List ℚ))
    (t : ℚ) (W H : ℕ) (hH : image.length = H) (hW : ∀ row ∈ image, row.length = W)
    (hH0 : 0 < H) :
    (project_to_3d image depth t).1 =
      (List.range H).flatMap (fun (v : ℕ) => (List.range W).map (fun (u : ℕ) =>
        (((u : ℚ) - (W : ℚ) / 2) * depthZ depth ((depth.getD v []).getD u 0)
            / (0.5 * (W : ℚ) / t),
         ((v : ℚ) - (H : ℚ) / 2) * depthZ depth ((depth.getD v []).getD u 0)
            / (0.5 * (W : ℚ) / t),
         depthZ depth ((depth.getD v []).getD u 0)))) := by
  match image, hH with
  | row0 :: rows, hH =>
    have h0 : row0.length = W := hW row0 (List.mem_cons_self row0 rows)
    simp only [project_to_3d, get_intrinsics, List.headD_cons, h0]
    rw [show (row0 :: rows).length = H from hH]
  | [], hH =>
    exact absurd (hH ▸ hH0) (by simp)

/-- C6: `project_to_3d` returns exactly W·H positions and W·H colors in
row-major pixel order, index-aligned; the position at pixel (u, v) is
`((u - cx)·Z/fx, (v - cy)·Z/fy, Z)` with fx, fy, cx, cy the entries of
`get_intrinsics`; the color at (u, v) is the raw 0-255 pixel divided by 255,
hence every channel lies in [0, 1]. -/
theorem C6_project_to_3d (image : List (List Pixel)) (depth : List (List ℚ))
    (t : ℚ) (W H : ℕ) (hH : image.length = H) (hW : ∀ row ∈ image, row.length = W)
    (hdH : depth.length = H) (hdW : ∀ row ∈ depth, row.length = W) (hH0 : 0 < H) :
    (project_to_3d image depth t).1.length = W * H ∧
    (project_to_3d image depth t).2.length = W * H ∧
    (∀ v u, v < H → u < W →
      (project_to_3d image depth t).1[v * W + u]? =
        some ((((u : ℚ) - (get_intrinsics W H t).1.2.2)
                 * depthZ depth ((depth.getD v []).getD u 0) / (get_intrinsics W H t).1.1,
               ((v : ℚ) - (get_intrinsics W H t).2.1.2.2)
                 * depthZ depth ((depth.getD v []).getD u 0) / (get_intrinsics W H t).2.1.2.1,
               depthZ depth ((depth.getD v []).getD u 0))) ∧
      (project_to_3d image depth t).2[v * W + u]? =
        Option.map pixelToRgb (image.getD v [])[u]?) ∧
    (∀ c ∈ (project_to_3d image depth t).2,
      0 ≤ c.1 ∧ c.1 ≤ 1 ∧ 0 ≤ c.2.1 ∧ c.2.1 ≤ 1 ∧ 0 ≤ c.2.2 ∧ c.2.2 ≤ 1) := by
  have hxyz := project_to_3d_xyz image depth t W H hH hW hH0
  have hrgb : (project_to_3d image depth t).2 =
      image.flatMap (fun row => row.map pixelToRgb) := rfl
  have hWrow : ∀ row ∈ image, (row.map pixelToRgb).length = W := by
    intro row hrow
    rw [List.length_map]
    exact hW row hrow
  have hWxyz : ∀ v ∈ List.range H,
      ((List.range W).map (fun (u : ℕ) =>
        (((u : ℚ) - (W : ℚ) / 2) * depthZ depth ((depth.getD v []).getD u 0)
            / (0.5 * (W : ℚ) / t),
         ((v : ℚ) - (H : ℚ) / 2) * depthZ depth ((depth.getD v []).getD u 0)
            / (0.5 * (W : ℚ) / t),
         depthZ depth ((depth.getD v []).getD u 0)))).length = W := by
    intro v _
    rw [List.length_map, List.length_range]
  refine ⟨?_, ?_, ?_, ?_⟩
  · rw [hxyz, flatMap_fixed_width_length _ _ W hWxyz, List.length_range, Nat.mul_comm]
  · rw [hrgb, flatMap_fixed_width_length _ _ W hWrow, hH, Nat.mul_comm]
  · intro v u hv hu
    constructor
    · rw [hxyz, flatMap_fixed_width_getElem 0 _ _ W v u hWxyz (by rw [List.length_range]; exact hv) hu,
        range_getD H v hv, List.getElem?_map, List.getElem?_range hu]
      simp [get_intrinsics]
    · rw [hrgb, flatMap_fixed_width_getElem [] _ _ W v u hWrow (by rw [hH]; exact hv) hu,
        List.getElem?_map]
  · intro c hc
    rw [hrgb] at hc
    rcases List.mem_flatMap.mp hc with ⟨row, _, hcrow⟩
    rcases List.mem_map.mp hcrow with ⟨px, _, rfl⟩
    have hb : ∀ m : Fin 256, (0 : ℚ) ≤ ((m : ℕ) : ℚ) / 255 ∧ ((m : ℕ) : ℚ) / 255 ≤ 1 := by
      intro m
      constructor
      · positivity
      · rw [div_le_one (by norm_num)]
        exact_mod_cast Nat.le_of_lt_succ m.isLt
    exact ⟨(hb px.1).1, (hb px.1).2, (hb px.2.1).1, (hb px.2.1).2,
      (hb px.2.2).1, (hb px.2.2).2⟩

/-- Witness for C6 on a concrete 1×1 image with pixel (255, 0, 255) and depth
5 at a half-FOV tangent of 1. -/
theorem C6_project_to_3d_witness :
    (project_to_3d [[((255 : Fin 256), 0, 255)]] [[(5 : ℚ)]] 1).1.length = 1 * 1 :=
  (C6_project_to_3d [[((255 : Fin 256), 0, 255)]] [[(5 : ℚ)]] 1 1 1 rfl (by decide)
    rfl (by decide) (by norm_num)).1

/-- C7: on a constant (min == max) W×H depth map no division is by zero — the
disparity denominator is the nonzero 1e-8 and the focal length is nonzero —
and every output point is finite with Z = (1/(0 + 0.05))·5 = 100 exactly,
whatever the constant and the field of view (Z does not depend on
`tanHalfFov`); in particular a 4×4 map of 5.0 yields 16 points all at
Z = 100. -/
theorem C7_flat_depth (image : List (List Pixel)) (W H : ℕ) (c t : ℚ)
    (hH : image.length = H) (hW : ∀ row ∈ image, row.length = W)
    (hH0 : 0 < H) (hW0 : 0 < W) (ht : 0 < t) :
    listMax (depthFlatten (List.replicate H (List.replicate W c))) -
      listMin (depthFlatten (List.replicate H (List.replicate W c))) + 1e-8 ≠ 0 ∧
    (0.5 : ℚ) * (W : ℚ) / t ≠ 0 ∧
    (project_to_3d image (List.replicate H (List.replicate W c)) t).1.length = W * H ∧
    (∀ p ∈ (project_to_3d image (List.replicate H (List.replicate W c)) t).1,
      p.2.2 = 100) := by
  have hHW : 0 < H * W := Nat.mul_pos hH0 hW0
  refine ⟨?_, ?_, ?_, ?_⟩
  · rw [depthFlatten_replicate, listMin_replicate (H * W) c hHW,
      listMax_replicate (H * W) c hHW]
    norm_num
  · have hWq : (0 : ℚ) < (W : ℚ) := by exact_mod_cast hW0
    positivity
  · rw [project_to_3d_xyz image _ t W H hH hW hH0]
    rw [flatMap_fixed_width_length _ _ W (by intro v _; rw [List.length_map, List.length_range]),
      List.length_range, Nat.mul_comm]
  · rw [project_to_3d_xyz image _ t W H hH hW hH0]
    intro p hp
    rcases List.mem_flatMap.mp hp with ⟨v, hv, hp2⟩
    rcases List.mem_map.mp hp2 with ⟨u, hu, rfl⟩
    have hvH : v < H := List.mem_range.mp hv
    have huW : u < W := List.mem_range.mp (by simpa using hu)
    have hrowD : (List.replicate H (List.replicate W c)).getD v [] = List.replicate W c := by
      rw [List.getD_eq_getElem?_getD, List.getElem?_replicate, if_pos hvH]
      rfl
    have hcell : ((List.replicate H (List.replicate W c)).getD v []).getD u 0 = c := by
      rw [hrowD, List.getD_eq_getElem?_getD, List.getElem?_replicate, if_pos huW]
      rfl
    show depthZ (List.replicate H (List.replicate W c))
      (((List.replicate H (List.replicate W c)).getD v []).getD u 0) = 100
    rw [hcell]
    exact depthZ_const H W c hH0 hW0

/-- Witness for C7 on a 4×4 depth map of constant 5.0 (an all-black 4×4
image, half-FOV tangent 1): 16 points are produced. -/
theorem C7_flat_depth_witness :
    (project_to_3d (List.replicate 4 (List.replicate 4 ((0 : Fin 256), 0, 0)))
      (List.replicate 4 (List.replicate 4 (5 : ℚ))) 1).1.length = 4 * 4 :=
  (C7_flat_depth (List.replicate 4 (List.replicate 4 ((0 : Fin 256), 0, 0))) 4 4 5 1
    rfl (by decide) (by norm_num) (by norm_num) (by norm_num)).2.2.1

/-- C10: every Z value `project_to_3d` produces lies in (5/1.05, 100]: the
normalized disparity lies in [0, 1) because of the 1e-8 denominator guard, so
Z = 5/(disparity + 0.05) is at most 100 and strictly above 5/1.05. -/
theorem C10_z_bounds (image : List (List Pixel)) (depth : List (List ℚ)) (t : ℚ)
    (W H : ℕ) (hH : image.length = H) (hW : ∀ row ∈ image, row.length = W)
    (hdH : depth.length = H) (hdW : ∀ row ∈ depth, row.length = W) (hH0 : 0 < H) :
    ∀ p ∈ (project_to_3d image depth t).1, 5 / (1.05 : ℚ) < p.2.2 ∧ p.2.2 ≤ 100 := by
  rw [project_to_3d_xyz image depth t W H hH hW hH0]
  intro p hp
  rcases List.mem_flatMap.mp hp with ⟨v, hv, hp2⟩
  rcases List.mem_map.mp hp2 with ⟨u, hu, rfl⟩
  have hvH : v < H := List.mem_range.mp hv
  have huW : u < W := List.mem_range.mp (by simpa using hu)
  have hrow : depth.getD v [] ∈ depth := by
    rw [List.getD_eq_getElem depth [] (by rw [hdH]; exact hvH)]
    exact List.getElem_mem _
  have hlen : (depth.getD v []).length = W := hdW _ hrow
  have hel : (depth.getD v []).getD u 0 ∈ depth.getD v [] := by
    rw [List.getD_eq_getElem _ 0 (by rw [hlen]; exact huW)]
    exact List.getElem_mem _
  have hmem : (depth.getD v []).getD u 0 ∈ depthFlatten depth := by
    rw [depthFlatten]
    exact List.mem_flatMap.mpr ⟨depth.getD v [], hrow, hel⟩
  have hb := depthZ_bounds depth ((depth.getD v []).getD u 0) hmem
  refine ⟨?_, hb.2⟩
  calc (5 : ℚ) / 1.05 = 100 / 21 := by norm_num
  _ < _ := hb.1

/-- Witness for C10 on a 1×1 black image with depth value 5: the single
produced point is (-100, -100, 100) and its Z lies in (5/1.05, 100]. -/
theorem C10_z_bounds_witness :
    5 / (1.05 : ℚ) < ((-100 : ℚ), (-100 : ℚ), (100 : ℚ)).2.2 ∧
      ((-100 : ℚ), (-100 : ℚ), (100 : ℚ)).2.2 ≤ 100 :=
  C10_z_bounds [[((0 : Fin 256), 0, 0)]] [[(5 : ℚ)]] 1 1 1 rfl (by decide) rfl
    (by decide) (by norm_num) ((-100 : ℚ), (-100 : ℚ), (100 : ℚ))
    (by norm_num [project_to_3d, get_intrinsics, depthZ, depthFlatten, listMin, listMax])

theorem map_getD_range {α : Type} (l : List α) (d : α) :
    (List.range l.length).map (fun i => l.getD i d) = l := by
  induction l with
  | nil => rfl
  | cons a as ih =>
      rw [List.length_cons, List.range_succ_eq_map, List.map_cons, List.map_map]
      simp only [Function.comp_def, List.getD_cons_succ, List.getD_cons_zero, Nat.succ_eq_add_one]
      rw [ih]

theorem zip3V_maps {α : Type} (l : List α) (f g h : α → ℚ) :
    zip3V (l.map f) (l.map g) (l.map h) = l.map (fun a => (f a, g a, h a)) := by
  unfold zip3V
  rw [List.zip_map', List.zip_map']

theorem sigmoid_nonneg (x : ℝ) : 0 ≤ sigmoid x := by
  unfold sigmoid
  positivity

theorem sigmoid_le_one (x : ℝ) : sigmoid x ≤ 1 := by
  unfold sigmoid
  rw [div_le_one (by positivity)]
  have := Real.exp_pos (-x)
  linarith

theorem sum_four_sq_eq_zero {a b c d : ℝ} (h : a ^ 2 + b ^ 2 + c ^ 2 + d ^ 2 = 0) :
    a = 0 ∧ b = 0 ∧ c = 0 ∧ d = 0 := by
  have ha := sq_nonneg a
  have hb := sq_nonneg b
  have hc := sq_nonneg c
  have hd := sq_nonneg d
  have ha0 : a ^ 2 = 0 := by linarith
  have hb0 : b ^ 2 = 0 := by linarith
  have hc0 : c ^ 2 = 0 := by linarith
  have hd0 : d ^ 2 = 0 := by linarith
  refine ⟨?_, ?_, ?_, ?_⟩
  · exact (pow_eq_zero_iff (by norm_num)).mp ha0
  · exact (pow_eq_zero_iff (by norm_num)).mp hb0
  · exact (pow_eq_zero_iff (by norm_num)).mp hc0
  · exact (pow_eq_zero_iff (by norm_num)).mp hd0

/-- Row-wise quaternion normalization yields a unit-norm row whenever the raw
row is nonzero. -/
theorem normR4_normalizeQuat (q : Vec4) (hq : q ≠ ((0 : ℚ), 0, 0, 0)) :
    normR4 (normalizeQuat q) = 1 := by
  have hS0 : (0 : ℝ) ≤ (q.1 : ℝ) ^ 2 + (q.2.1 : ℝ) ^ 2 + (q.2.2.1 : ℝ) ^ 2 + (q.2.2.2 : ℝ) ^ 2 := by
    positivity
  have hSne : (q.1 : ℝ) ^ 2 + (q.2.1 : ℝ) ^ 2 + (q.2.2.1 : ℝ) ^ 2 + (q.2.2.2 : ℝ) ^ 2 ≠ 0 := by
    intro h0
    apply hq
    obtain ⟨e1, e2, e3, e4⟩ := sum_four_sq_eq_zero h0
    have f1 : q.1 = 0 := by exact_mod_cast e1
    have f2 : q.2.1 = 0 := by exact_mod_cast e2
    have f3 : q.2.2.1 = 0 := by exact_mod_cast e3
    have f4 : q.2.2.2 = 0 := by exact_mod_cast e4
    calc q = (q.1, q.2.1, q.2.2.1, q.2.2.2) := rfl
    _ = ((0 : ℚ), 0, 0, 0) := by rw [f1, f2, f3, f4]
  have hSpos : (0 : ℝ) < (q.1 : ℝ) ^ 2 + (q.2.1 : ℝ) ^ 2 + (q.2.2.1 : ℝ) ^ 2 + (q.2.2.2 : ℝ) ^ 2 :=
    lt_of_le_of_ne hS0 (Ne.symm hSne)
  have hnpos : 0 < quatNorm q := Real.sqrt_pos.mpr hSpos
  unfold normR4 normalizeQuat
  have hsum : ((q.1 : ℝ) / quatNorm q) ^ 2 + ((q.2.1 : ℝ) / quatNorm q) ^ 2 +
      ((q.2.2.1 : ℝ) / quatNorm q) ^ 2 + ((q.2.2.2 : ℝ) / quatNorm q) ^ 2 =
      ((q.1 : ℝ) ^ 2 + (q.2.1 : ℝ) ^ 2 + (q.2.2.1 : ℝ) ^ 2 + (q.2.2.2 : ℝ) ^ 2)
        / quatNorm q ^ 2 := by
    ring
  rw [hsum, show quatNorm q ^ 2 = (q.1 : ℝ) ^ 2 + (q.2.1 : ℝ) ^ 2 + (q.2.2.1 : ℝ) ^ 2 +
      (q.2.2.2 : ℝ) ^ 2 from Real.sq_sqrt hS0, div_self hSne]
  exact Real.sqrt_one

/-- C8: `load_ply` resolves colors by priority — direct `red/green/blue`
divided by 255 when all three are present, else `f_dc_*` decoded via
`clip(f_dc·C0 + 0.5, 0, 1)` when all three are present, else the white
fallback (all channels 1.0) with a warning — and fails with an error when the
position fields are absent. -/
theorem C8_load_ply_color_priority (v : PlyVertexElement) :
    (v.get? "x" = none → v.get? "y" = none → v.get? "z" = none →
      load_ply v = Except.error ("PLY vertex element has no position property")) ∧
    (∀ xs ys zs, v.get? "x" = some xs → v.get? "y" = some ys → v.get? "z" = some zs →
      (v.hasField "red" = true → v.hasField "green" = true → v.hasField "blue" = true →
        load_ply v = Except.ok (zip3V xs ys zs,
          (zip3V (v.col "red") (v.col "green") (v.col "blue")).map
            (fun c => (c.1 / 255, c.2.1 / 255, c.2.2 / 255)), false)) ∧
      (¬(v.hasField "red" = true ∧ v.hasField "green" = true ∧ v.hasField "blue" = true) →
        v.hasField "f_dc_0" = true → v.hasField "f_dc_1" = true →
        v.hasField "f_dc_2" = true →
        load_ply v = Except.ok (zip3V xs ys zs,
          (zip3V (v.col "f_dc_0") (v.col "f_dc_1") (v.col "f_dc_2")).map
            (fun c => clip01V (shDecode c)), false)) ∧
      (¬(v.hasField "red" = true ∧ v.hasField "green" = true ∧ v.hasField "blue" = true) →
        ¬(v.hasField "f_dc_0" = true ∧ v.hasField "f_dc_1" = true ∧
          v.hasField "f_dc_2" = true) →
        load_ply v = Except.ok (zip3V xs ys zs,
          (zip3V xs ys zs).map (fun _ => ((1 : ℚ), 1, 1)), true))) := by
  constructor
  · intro hx hy hz
    simp only [load_ply, hx, hy, hz]
  · intro xs ys zs hx hy hz
    have hrgbFalse : ¬(v.hasField "red" = true ∧ v.hasField "green" = true ∧
        v.hasField "blue" = true) →
        (v.hasField "red" && v.hasField "green" && v.hasField "blue") = false := by
      intro hnot
      rcases Bool.eq_false_or_eq_true (v.hasField "red" && v.hasField "green" && v.hasField "blue")
        with htt | hff
      · rcases Bool.and_eq_true_iff.mp htt with ⟨hrg, hb⟩
        rcases Bool.and_eq_true_iff.mp hrg with ⟨hr, hg⟩
        exact absurd ⟨hr, hg, hb⟩ hnot
      · exact hff
    have hfdcFalse : ¬(v.hasField "f_dc_0" = true ∧ v.hasField "f_dc_1" = true ∧
        v.hasField "f_dc_2" = true) →
        (v.hasField "f_dc_0" && v.hasField "f_dc_1" && v.hasField "f_dc_2") = false := by
      intro hnot
      rcases Bool.eq_false_or_eq_true
        (v.hasField "f_dc_0" && v.hasField "f_dc_1" && v.hasField "f_dc_2") with htt | hff
      · rcases Bool.and_eq_true_iff.mp htt with ⟨hrg, hb⟩
        rcases Bool.and_eq_true_iff.mp hrg with ⟨hr, hg⟩
        exact absurd ⟨hr, hg, hb⟩ hnot
      · exact hff
    refine ⟨?_, ?_, ?_⟩
    · intro hr hg hb
      simp only [load_ply, hx, hy, hz, hr, hg, hb, Bool.and_self, if_true]
    · intro hnotrgb hf0 hf1 hf2
      simp only [load_ply, hx, hy, hz, hrgbFalse hnotrgb, Bool.false_eq_true, if_false,
        hf0, hf1, hf2, Bool.and_self, if_true]
    · intro hnotrgb hnotfdc
      simp only [load_ply, hx, hy, hz, hrgbFalse hnotrgb, hfdcFalse hnotfdc,
        Bool.false_eq_true, if_false]

/-- A concrete parsed vertex element with positions and `f_dc_*` color fields
but no direct RGB fields. -/
def plyFdcExample : PlyVertexElement :=
  ⟨[("x", [0]), ("y", [0]), ("z", [0]),
    ("f_dc_0", [2]), ("f_dc_1", [0]), ("f_dc_2", [-2])]⟩

/-- Witness for C8: on `plyFdcExample` the `f_dc_*` branch is taken. -/
theorem C8_load_ply_color_priority_witness :
    load_ply plyFdcExample = Except.ok (zip3V [(0 : ℚ)] [(0 : ℚ)] [(0 : ℚ)],
      (zip3V (plyFdcExample.col "f_dc_0") (plyFdcExample.col "f_dc_1")
        (plyFdcExample.col "f_dc_2")).map (fun c => clip01V (shDecode c)), false) :=
  ((C8_load_ply_color_priority plyFdcExample).2 [(0 : ℚ)] [(0 : ℚ)] [(0 : ℚ)]
    rfl rfl rfl).2.1 (by decide) rfl rfl rfl

/-- C1 (amended): for every splat store, writing its raw attributes with
`save_ply` and reading the file back with `load_ply` reproduces the point
count N and the positions in storage order (colors come back as the decoded,
clipped sh0), and activating the raw records gives positive physical scales
(`exp`), opacities in [0, 1] (`sigmoid`) and — for each splat whose raw
quaternion is nonzero — a unit-norm rotation.  Only the unit-norm conjunct is
conditioned, per splat; everything else holds unconditionally. -/
theorem C1_ply_round_trip (p : SplatParams) (N : ℕ)
    (hm : p.means.length = N) (hs : p.scales.length = N) (hq : p.quats.length = N)
    (ho : p.opacities.length = N) (hsh : p.sh0.length = N) :
    (GaussianOptimizer.save_ply p).length = N ∧
    load_ply (recordsToElement (GaussianOptimizer.save_ply p)) =
      Except.ok (p.means, p.sh0.map (fun c => clip01V (shDecode c)), false) ∧
    (∀ r ∈ GaussianOptimizer.save_ply p,
      0 < Real.exp r.scale_0 ∧ 0 < Real.exp r.scale_1 ∧ 0 < Real.exp r.scale_2 ∧
      0 ≤ sigmoid r.opacity ∧ sigmoid r.opacity ≤ 1 ∧
      ((r.rot_0, r.rot_1, r.rot_2, r.rot_3) ≠ ((0 : ℚ), 0, 0, 0) →
        normR4 (normalizeQuat (r.rot_0, r.rot_1, r.rot_2, r.rot_3)) = 1)) := by
  refine ⟨?_, ?_, ?_⟩
  · simp only [GaussianOptimizer.save_ply, List.length_map, List.length_range]
    exact hm
  · have hload : load_ply (recordsToElement (GaussianOptimizer.save_ply p)) =
        Except.ok (zip3V ((GaussianOptimizer.save_ply p).map PlyRecord.x)
            ((GaussianOptimizer.save_ply p).map PlyRecord.y)
            ((GaussianOptimizer.save_ply p).map PlyRecord.z),
          (zip3V ((GaussianOptimizer.save_ply p).map PlyRecord.f_dc_0)
            ((GaussianOptimizer.save_ply p).map PlyRecord.f_dc_1)
            ((GaussianOptimizer.save_ply p).map PlyRecord.f_dc_2)).map
            (fun c => clip01V (shDecode c)), false) := rfl
    rw [hload]
    have hpoints : zip3V ((GaussianOptimizer.save_ply p).map PlyRecord.x)
        ((GaussianOptimizer.save_ply p).map PlyRecord.y)
        ((GaussianOptimizer.save_ply p).map PlyRecord.z) = p.means := by
      simp only [GaussianOptimizer.save_ply, List.map_map]
      rw [zip3V_maps]
      exact map_getD_range p.means ((0 : ℚ), 0, 0)
    have hcolors : zip3V ((GaussianOptimizer.save_ply p).map PlyRecord.f_dc_0)
        ((GaussianOptimizer.save_ply p).map PlyRecord.f_dc_1)
        ((GaussianOptimizer.save_ply p).map PlyRecord.f_dc_2) = p.sh0 := by
      simp only [GaussianOptimizer.save_ply, List.map_map]
      rw [zip3V_maps]
      rw [show p.means.length = p.sh0.length from hm.trans hsh.symm]
      exact map_getD_range p.sh0 ((0 : ℚ), 0, 0)
    rw [hpoints, hcolors]
  · intro r hr
    exact ⟨Real.exp_pos _, Real.exp_pos _, Real.exp_pos _,
      sigmoid_nonneg _, sigmoid_le_one _,
      fun hne => normR4_normalizeQuat (r.rot_0, r.rot_1, r.rot_2, r.rot_3) hne⟩

/-- A one-splat store whose raw quaternion is the zero row. -/
def zeroQuatParams : SplatParams :=
  { means := [((0 : ℚ), 0, 0)]
  , scales := [((-5 : ℚ), -5, -5)]
  , quats := [((0 : ℚ), 0, 0, 0)]
  , opacities := [(0 : ℚ)]
  , sh0 := [((0 : ℚ), 0, 0)] }

/-- The single record `save_ply` writes for `zeroQuatParams`. -/
def zeroQuatRecord : PlyRecord :=
  { x := 0, y := 0, z := 0, nx := 0, ny := 0, nz := 0
  , f_dc_0 := 0, f_dc_1 := 0, f_dc_2 := 0, opacity := 0
  , scale_0 := -5, scale_1 := -5, scale_2 := -5
  , rot_0 := 0, rot_1 := 0, rot_2 := 0, rot_3 := 0 }

/-- Counterexample to C1 as stated: for the store `zeroQuatParams` (count 1,
raw quaternion the zero row) the round trip does not yield a unit-norm
rotation — the activated rotation of its single record has norm 0. -/
theorem C1_zero_quat_counterexample :
    ¬ ∀ r ∈ GaussianOptimizer.save_ply zeroQuatParams,
        normR4 (normalizeQuat (r.rot_0, r.rot_1, r.rot_2, r.rot_3)) = 1 := by
  intro hall
  have hmem : zeroQuatRecord ∈ GaussianOptimizer.save_ply zeroQuatParams := by
    simp [GaussianOptimizer.save_ply, zeroQuatParams, zeroQuatRecord]
  have h1 := hall _ hmem
  have h0 : normR4 (normalizeQuat ((0 : ℚ), 0, 0, 0)) = 0 := by
    unfold normR4 normalizeQuat quatNorm
    norm_num
  rw [show (zeroQuatRecord.rot_0, zeroQuatRecord.rot_1, zeroQuatRecord.rot_2,
    zeroQuatRecord.rot_3) = (((0 : ℚ), 0, 0, 0) : Vec4) from rfl, h0] at h1
  exact absurd h1 (by norm_num)

/-- Witness for the amended C1 on a concrete one-splat store built by
`_initialize_parameters`. -/
theorem C1_ply_round_trip_witness :
    (GaussianOptimizer.save_ply
      (GaussianOptimizer.initialize_parameters [((1 : ℚ), 2, 3)] [((0 : ℚ), 1, 0)])).length
      = 1 :=
  (C1_ply_round_trip
    (GaussianOptimizer.initialize_parameters [((1 : ℚ), 2, 3)] [((0 : ℚ), 1, 0)]) 1
    rfl rfl rfl rfl rfl).1

end IMG2GS
